import Mathlib

/-!
Shallow embedding of the refurbed-notifier dispatch engine
(pkg/notification: client.go, config.go, errors, options;
pkg/notification/internal/ratelimiter; cmd/internal/timedbuffer).

Durations are modelled in nanoseconds (Go's time.Duration unit).
Go uint64 arithmetic is modelled on Nat with explicit reduction
modulo 2^64 where overflow can occur.
-/

namespace Notifier

/-- Nanoseconds in one second (Go: time.Second). -/
def nsPerSecond : Nat := 1000000000

/-- config.go: defaultShutdownGraceDuration = 3 * time.Second. -/
def defaultShutdownGraceDuration : Nat := 3 * nsPerSecond

/-- config.go: defaultEnqueueRetryDuration = 3 * time.Second. -/
def defaultEnqueueRetryDuration : Nat := 3 * nsPerSecond

/-- config.go: defaultBufferSize = 1000. -/
def defaultBufferSize : Nat := 1000

/-- config.go: defaultRateLimit = 100. -/
def defaultRateLimit : Nat := 100

/-- config.go: defaultRateLimitRetryDuration = 3 * time.Second. -/
def defaultRateLimitRetryDuration : Nat := 3 * nsPerSecond

/-- config.go: defaultConcurrency = 100. -/
def defaultConcurrency : Nat := 100

/-- Messages are opaque text payloads (tests pass Go strings directly
to Notify, so Message is a string type). -/
abbrev Message := String

/-- The modulus of Go's uint64 arithmetic. -/
def U64 : Nat := 2 ^ 64

/-! ## Rate limiter (internal/ratelimiter)

The mutex in the Go code makes every refill tick and every Add call
atomic, so a concurrent history is equivalent to some sequential
interleaving of atomic events; we model states reached by an arbitrary
event list. tokens, max, refillTokens are uint64 fields. -/

/-- The mutable state of ratelimiter.RateLimiter (the refillEvery
duration and stop channel do not affect token arithmetic). -/
structure RateLimiter where
  tokens : Nat
  max : Nat
  refillTokens : Nat
  deriving DecidableEq, Repr

/-- ratelimiter.New(rps, refill): tokens and max start at rps. -/
def RateLimiter.new (rps refill : Nat) : RateLimiter :=
  { tokens := rps, max := rps, refillTokens := refill }

/-- One tick of the refill goroutine in RateLimiter.Start:
t := r.tokens + r.refillTokens (uint64 addition, hence mod 2^64);
if t > r.max then t = r.max; r.tokens = t. -/
def RateLimiter.refillTick (r : RateLimiter) : RateLimiter :=
  let t := (r.tokens + r.refillTokens) % U64
  { r with tokens := if t > r.max then r.max else t }

/-- RateLimiter.Add: take one token if available, reporting success;
never blocks (the lock is held only for this read-modify-write). -/
def RateLimiter.add (r : RateLimiter) : RateLimiter × Bool :=
  if r.tokens > 0 then ({ r with tokens := r.tokens - 1 }, true)
  else (r, false)

/-- An atomic event on the rate-limiter state: a refill tick or an
Add call. -/
inductive RLEvent where
  | tick
  | addCall
  deriving DecidableEq, Repr

/-- Apply one atomic event to the rate-limiter state. -/
def RateLimiter.step (r : RateLimiter) : RLEvent → RateLimiter
  | RLEvent.tick => r.refillTick
  | RLEvent.addCall => (r.add).1

/-- The state after an arbitrary interleaving of ticks and Add calls. -/
def RateLimiter.run (r : RateLimiter) (es : List RLEvent) : RateLimiter :=
  es.foldl RateLimiter.step r

/-! ## Status classification (client.go: classifyStatus, is2XX, is5XX) -/

/-- client.go is2XX. Status codes are Go ints, hence Int. -/
def is2XX (status : Int) : Bool := status ≥ 200 && status < 300

/-- client.go is5XX. -/
def is5XX (status : Int) : Bool := status ≥ 500

/-- The requestError value (errors file): underlying status, the failed
message, and the retryable flag. -/
structure RequestError where
  status : Int
  msg : Message
  retryable : Bool
  deriving DecidableEq, Repr

/-- newRequestError(status, msg, retryable). -/
def newRequestError (status : Int) (msg : Message) (retryable : Bool) :
    RequestError :=
  { status := status, msg := msg, retryable := retryable }

/-- requestError.IsRetryable. -/
def RequestError.isRetryable (re : RequestError) : Bool := re.retryable

/-- requestError.Message: the message that failed. -/
def RequestError.message (re : RequestError) : Message := re.msg

/-- client.go classifyStatus: nil on 2xx, otherwise a requestError
that is retryable exactly for 5xx; the switch sets retryable := false,
flips it in the is5XX case, and falls through to newRequestError. -/
def classifyStatus (status : Int) (msg : Message) : Option RequestError :=
  if is2XX status then none
  else
    let retryable := is5XX status
    some (newRequestError status msg retryable)

/-! ## Enqueue path (client.go: Notify; errors file: enqueueError)

c.msgs is a buffered Go channel of capacity maxBufferSize. Notify's
select with a default branch is a non-blocking send: with no worker
draining the queue, the send succeeds exactly when the channel buffer
has free space, and the message joins the back of the FIFO buffer. -/

/-- enqueueError wraps the failure; the Go value stores the error
produced by fmt.Errorf("failed to enqueue message: %s", msg). -/
structure EnqueueError where
  errText : String
  deriving DecidableEq, Repr

/-- newEnqueueError applied to the formatted failure for msg. -/
def newEnqueueError (msg : Message) : EnqueueError :=
  { errText := "failed to enqueue message: " ++ msg }

/-- enqueueError.IsTemporary: always true. -/
def EnqueueError.isTemporary (_ : EnqueueError) : Bool := true

/-- enqueueError.RetryAfter: always defaultEnqueueRetryDuration. -/
def EnqueueError.retryAfter (_ : EnqueueError) : Nat :=
  defaultEnqueueRetryDuration

/-- The message queue: a buffered channel with fixed capacity and a
FIFO buffer, with no receiver currently waiting on it. -/
structure Queue where
  cap : Nat
  buf : List Message
  deriving DecidableEq, Repr

/-- A non-blocking send on the queue channel (the select/default in
Notify, with no worker blocked in receive): succeeds exactly when the
buffer has free space. -/
def Queue.trySend (q : Queue) (m : Message) : Queue × Bool :=
  if q.buf.length < q.cap then ({ q with buf := q.buf ++ [m] }, true)
  else (q, false)

/-- client.go Notify: for each message in order, non-blocking send;
on the first rejection stop and return newEnqueueError for the
rejected message; nil when every message was accepted. -/
def notify (q : Queue) : List Message → Queue × Option EnqueueError
  | [] => (q, none)
  | m :: rest =>
    let s := q.trySend m
    if s.2 then notify s.1 rest
    else (s.1, some (newEnqueueError m))

/-- A sequence of single-message Notify calls, stopping at the first
failing call (as a producer retrying per message would observe). -/
def notifySingles (q : Queue) : List Message → Queue × Option EnqueueError
  | [] => (q, none)
  | m :: rest =>
    let s := notify q [m]
    match s.2 with
    | none => notifySingles s.1 rest
    | some e => (s.1, some e)

/-! ## Rate-limit retry loop (client.go: retryRateLimit)

Each iteration of the Go loop runs one select with three branches and
a default. Crucially the timeout operand is time.After(
defaultRateLimitRetryDuration) evaluated anew inside the loop body, so
every iteration polls a freshly created 3-second timer. A poll is
described by which branches are ready at that instant. -/

/-- One poll of the select in retryRateLimit.
doneClosed: whether close(c.done) has happened (Stop was called);
timerElapsedNs: wall-clock nanoseconds between this iteration's
time.After call and the readiness check of the same select (the timer
channel is ready exactly when this reaches the retry duration);
addOk: what rl.Add() returns if the default branch runs. -/
structure RetryPoll where
  doneClosed : Bool
  timerElapsedNs : Nat
  addOk : Bool
  deriving DecidableEq, Repr

/-- Result of retryRateLimit: nilReturn models returning nil (the done
case and the Add-success case), rateLimitReached models the error
return from the timeout case. -/
inductive RetryOutcome where
  | nilReturn
  | rateLimitReached
  deriving DecidableEq, Repr

/-- One iteration of the retry loop: the done case returns nil; the
timeout case (its freshly created timer ready) returns the rate-limit
error; otherwise the default branch polls Add and returns nil on
success; none means the loop continues. When several channel cases
are ready Go picks pseudo-randomly; the claims below only use polls
in which at most one case is ready, where this chain is exact. -/
def retryStep (p : RetryPoll) : Option RetryOutcome :=
  if p.doneClosed then some RetryOutcome.nilReturn
  else if defaultRateLimitRetryDuration ≤ p.timerElapsedNs then
    some RetryOutcome.rateLimitReached
  else if p.addOk then some RetryOutcome.nilReturn
  else none

/-- Run the retry loop over a finite trace of polls; none means the
loop was still spinning when the trace ended. -/
def retryLoop : List RetryPoll → Option RetryOutcome
  | [] => none
  | p :: ps =>
    match retryStep p with
    | some o => some o
    | none => retryLoop ps

/-- What the worker does with a message after retryRateLimit returns
(client.go worker): a non-nil error means the message is dropped and
a wrapped error is emitted; a nil return means the worker proceeds to
send the message as an HTTP request. -/
inductive WorkerAction where
  | sent (m : Message)
  | droppedWithError (m : Message)
  deriving DecidableEq, Repr

/-- The branch on the result of retryRateLimit in the worker loop. -/
def workerAfterRetry (m : Message) : RetryOutcome → WorkerAction
  | RetryOutcome.nilReturn => WorkerAction.sent m
  | RetryOutcome.rateLimitReached => WorkerAction.droppedWithError m

/-! ## Shutdown (client.go: Stop, waitWithTimeout) -/

/-- The error of waitWithTimeout (shut down grace period exceeded). -/
inductive StopError where
  | gracePeriodExceeded
  deriving DecidableEq, Repr

/-- waitWithTimeout: a select between the WaitGroup completing and
time.After(grace). wgFinish is the instant (ns after the wait starts)
at which all workers have finished, none if they never do. The result
is the wait's duration and the returned error. At the exact boundary
wgFinish = grace both cases are ready and Go picks pseudo-randomly;
we model the done case winning. -/
def waitWithTimeout (grace : Nat) (wgFinish : Option Nat) :
    Nat × Option StopError :=
  match wgFinish with
  | some t => if t ≤ grace then (t, none) else (grace, some StopError.gracePeriodExceeded)
  | none => (grace, some StopError.gracePeriodExceeded)

/-- The side-effecting steps Stop performs, in program order (the wait
happens between closeDone and closeErrs). -/
inductive StopAction where
  | rlStop
  | closeDone
  | closeErrs
  | closeMsgs
  deriving DecidableEq, Repr

/-- The result of one Stop call: the ordered actions performed, the
duration of the bounded wait, and the returned error. -/
structure StopResult where
  actions : List StopAction
  waitNs : Nat
  err : Option StopError
  deriving DecidableEq, Repr

/-- client.go Stop: rl.Stop(); close(done); waitWithTimeout; then
close(errs) and close(msgs) regardless of the wait's outcome. -/
def stop (grace : Nat) (wgFinish : Option Nat) : StopResult :=
  let w := waitWithTimeout grace wgFinish
  { actions := [StopAction.rlStop, StopAction.closeDone,
                StopAction.closeErrs, StopAction.closeMsgs],
    waitNs := w.1,
    err := w.2 }

/-! ## Error channel (client.go: NewClient, sendError) -/

/-- Capacity of c.errs: NewClient builds it with make(chan error),
an unbuffered channel, and no option ever replaces it. -/
def errsCapacity : Nat := 0

/-- A non-blocking send on a Go channel with the given capacity and
current number of buffered elements: it succeeds exactly when a
receiver is blocked on the channel or the buffer has free space. -/
def chanTrySend (capacity buffered : Nat) (receiverWaiting : Bool) : Bool :=
  receiverWaiting || decide (buffered < capacity)

/-- client.go sendError: select errs <- err / default. Returns whether
the error was delivered; the worker continues either way (never
blocks). An unbuffered channel never holds elements, so buffered = 0. -/
def sendError (receiverWaiting : Bool) : Bool :=
  chanTrySend errsCapacity 0 receiverWaiting

/-! ## Timed buffer (cmd/internal/timedbuffer) -/

/-- timedbuffer.Buffer mutable state: the configured max size (a Go
int) and the accumulated messages. -/
structure Buffer where
  size : Int
  buffer : List Message
  deriving DecidableEq, Repr

/-- The capacity error of Buffer.Append
(fmt.Errorf with the configured size). -/
inductive AppendError where
  | maxExceeded (size : Int)
  deriving DecidableEq, Repr

/-- timedbuffer.Buffer.Append: an empty call returns nil untouched;
a call that would push the accumulator past size returns the capacity
error leaving it untouched; otherwise the messages are appended. -/
def Buffer.append (b : Buffer) (msgs : List Message) : Buffer × Option AppendError :=
  if msgs.length = 0 then (b, none)
  else if (b.buffer.length : Int) + (msgs.length : Int) > b.size then
    (b, some (AppendError.maxExceeded b.size))
  else ({ b with buffer := b.buffer ++ msgs }, none)

/-- A sequence of successful-or-not single-message Append calls (the
producer side of the batch-integrity scenario); each call keeps the
buffer returned by the previous one. -/
def Buffer.appendEach (b : Buffer) (ms : List Message) : Buffer :=
  ms.foldl (fun b m => (b.append [m]).1) b

/-- timedbuffer.Buffer.flush: swap the accumulator out under the lock,
then, if the captured batch is non-empty, attempt a non-blocking send
on flushCh; receiverReady says whether a receiver is blocked on
flushCh at that instant (flushCh is unbuffered). Returns the new
buffer state and the batch delivered on flushCh, if any. -/
def Buffer.flush (b : Buffer) (receiverReady : Bool) :
    Buffer × Option (List Message) :=
  let buf := b.buffer
  let b' := { b with buffer := [] }
  if buf.length = 0 then (b', none)
  else if receiverReady then (b', some buf)
  else (b', none)

/-! ## Helper lemmas -/

/-- Reachability of a rate-limiter state from construction by an
interleaving of atomic refill ticks and Add calls. -/
def RateLimiter.reachable (rps refill : Nat) (r : RateLimiter) : Prop :=
  ∃ es : List RLEvent, r = RateLimiter.run (RateLimiter.new rps refill) es

theorem RateLimiter.step_max (r : RateLimiter) (e : RLEvent) :
    (r.step e).max = r.max := by
  cases e
  · rfl
  · simp only [RateLimiter.step, RateLimiter.add]
    split_ifs <;> rfl

theorem RateLimiter.step_refillTokens (r : RateLimiter) (e : RLEvent) :
    (r.step e).refillTokens = r.refillTokens := by
  cases e
  · rfl
  · simp only [RateLimiter.step, RateLimiter.add]
    split_ifs <;> rfl

theorem RateLimiter.step_tokens_le (r : RateLimiter) (e : RLEvent)
    (h : r.tokens ≤ r.max) : (r.step e).tokens ≤ r.max := by
  cases e
  · simp only [RateLimiter.step, RateLimiter.refillTick]
    split_ifs with hgt
    · exact le_refl _
    · omega
  · simp only [RateLimiter.step, RateLimiter.add]
    split_ifs <;> simp <;> omega

theorem RateLimiter.run_inv (r0 : RateLimiter) (es : List RLEvent)
    (h : r0.tokens ≤ r0.max) :
    (r0.run es).max = r0.max ∧ (r0.run es).refillTokens = r0.refillTokens ∧
      (r0.run es).tokens ≤ r0.max := by
  induction es generalizing r0 with
  | nil => exact ⟨rfl, rfl, h⟩
  | cons e es ih =>
    have hrun : r0.run (e :: es) = (r0.step e).run es := by
      simp [RateLimiter.run]
    have hle : (r0.step e).tokens ≤ (r0.step e).max := by
      rw [RateLimiter.step_max]
      exact RateLimiter.step_tokens_le r0 e h
    obtain ⟨h1, h2, h3⟩ := ih (r0.step e) hle
    refine ⟨?_, ?_, ?_⟩
    · rw [hrun, h1, RateLimiter.step_max]
    · rw [hrun, h2, RateLimiter.step_refillTokens]
    · rw [hrun]
      calc ((r0.step e).run es).tokens ≤ (r0.step e).max := h3
        _ = r0.max := RateLimiter.step_max r0 e

theorem RateLimiter.refillTick_tokens (r : RateLimiter) :
    r.refillTick.tokens = min ((r.tokens + r.refillTokens) % U64) r.max := by
  simp only [RateLimiter.refillTick]
  split_ifs with h <;> omega

theorem notify_fst (C : Nat) (B ms : List Message) (hB : B.length ≤ C) :
    (notify ⟨C, B⟩ ms).1 = ⟨C, B ++ ms.take (C - B.length)⟩ := by
  induction ms generalizing B with
  | nil => simp [notify]
  | cons m rest ih =>
    by_cases h : B.length < C
    · have hstep : notify ⟨C, B⟩ (m :: rest) = notify ⟨C, B ++ [m]⟩ rest := by
        simp [notify, Queue.trySend, h]
      have hlen : (B ++ [m]).length ≤ C := by simp; omega
      rw [hstep, ih (B ++ [m]) hlen]
      have hk : C - B.length = (C - (B ++ [m]).length) + 1 := by simp; omega
      rw [hk]
      simp [List.take_succ_cons]
    · have h0 : C - B.length = 0 := by omega
      simp [notify, Queue.trySend, h, h0]

theorem notify_snd_none_iff (C : Nat) (B ms : List Message) (hB : B.length ≤ C) :
    (notify ⟨C, B⟩ ms).2 = none ↔ B.length + ms.length ≤ C := by
  induction ms generalizing B with
  | nil => simp [notify]; omega
  | cons m rest ih =>
    by_cases h : B.length < C
    · have hstep : notify ⟨C, B⟩ (m :: rest) = notify ⟨C, B ++ [m]⟩ rest := by
        simp [notify, Queue.trySend, h]
      have hlen : (B ++ [m]).length ≤ C := by simp; omega
      rw [hstep, ih (B ++ [m]) hlen]
      simp
      omega
    · simp [notify, Queue.trySend, h]
      omega

theorem notify_snd_some (C : Nat) (B ms : List Message) (hB : B.length ≤ C)
    (hover : C < B.length + ms.length) :
    (notify ⟨C, B⟩ ms).2 = some (newEnqueueError (ms.getD (C - B.length) "")) := by
  induction ms generalizing B with
  | nil => exfalso; simp at hover; omega
  | cons m rest ih =>
    by_cases h : B.length < C
    · have hstep : notify ⟨C, B⟩ (m :: rest) = notify ⟨C, B ++ [m]⟩ rest := by
        simp [notify, Queue.trySend, h]
      have hlen : (B ++ [m]).length ≤ C := by simp; omega
      have hover2 : C < (B ++ [m]).length + rest.length := by
        simp at hover ⊢
        omega
      rw [hstep, ih (B ++ [m]) hlen hover2]
      have hk : C - B.length = (C - (B ++ [m]).length) + 1 := by simp; omega
      rw [hk]
      simp [List.getD_cons_succ]
    · have h0 : C - B.length = 0 := by omega
      simp [notify, Queue.trySend, h, h0]

theorem notifySingles_eq (q : Queue) (ms : List Message) :
    notifySingles q ms = notify q ms := by
  induction ms generalizing q with
  | nil => rfl
  | cons m rest ih =>
    by_cases h : q.buf.length < q.cap
    · simp [notifySingles, notify, Queue.trySend, h, ih]
    · simp [notifySingles, notify, Queue.trySend, h]

theorem Buffer.appendEach_spec (size : Int) (ms : List Message) :
    ∀ B : List Message, (B.length : Int) + (ms.length : Int) ≤ size →
      Buffer.appendEach ⟨size, B⟩ ms = ⟨size, B ++ ms⟩ := by
  induction ms with
  | nil => intro B _; simp [Buffer.appendEach]
  | cons m rest ih =>
    intro B h
    have hstep : (Buffer.append ⟨size, B⟩ [m]).1 = ⟨size, B ++ [m]⟩ := by
      have hle : ¬ ((B.length : Int) + (1 : Int) > size) := by
        simp at h ⊢
        omega
      simp [Buffer.append, hle]
    have hrest : ((B ++ [m]).length : Int) + (rest.length : Int) ≤ size := by
      simp at h ⊢
      omega
    have := ih (B ++ [m]) hrest
    simp only [Buffer.appendEach, List.foldl_cons] at this ⊢
    rw [hstep] at *
    rw [this]
    simp

/-! ## Claim theorems -/

/-- C1 (code evaluation at the failing input): retryRateLimit does not
terminate within the retry window when Add keeps failing and no
shutdown fires. Each loop iteration evaluates time.After anew, so the
select polls a timer created within that same iteration; since the
poll happens strictly less than the retry duration after that timer's
creation, the timeout case is never ready, and for a trace of any
length in which the done channel is open and Add returns false the
loop is still spinning: no iteration returns, and in particular no
'rate limit reached' error is ever produced. -/
theorem C1_retry_loop_never_times_out (ps : List RetryPoll)
    (h : ∀ p ∈ ps, p.doneClosed = false ∧ p.addOk = false ∧
      p.timerElapsedNs < defaultRateLimitRetryDuration) :
    retryLoop ps = none := by
  induction ps with
  | nil => rfl
  | cons p ps ih =>
    obtain ⟨h1, h2, h3⟩ := h p (List.mem_cons_self p ps)
    have hnt : ¬ defaultRateLimitRetryDuration ≤ p.timerElapsedNs := by omega
    have hstep : retryStep p = none := by
      simp [retryStep, h1, h2, hnt]
    simp only [retryLoop, hstep]
    exact ih fun q hq => h q (List.mem_cons_of_mem p hq)

/-- Witness for C1 at a concrete spinning trace of four polls. -/
theorem C1_witness :
    (∀ p ∈ List.replicate 4
        ({ doneClosed := false, timerElapsedNs := 1000, addOk := false } : RetryPoll),
      p.doneClosed = false ∧ p.addOk = false ∧
        p.timerElapsedNs < defaultRateLimitRetryDuration) ∧
    retryLoop (List.replicate 4
        { doneClosed := false, timerElapsedNs := 1000, addOk := false }) = none :=
  ⟨by decide, C1_retry_loop_never_times_out _ (by decide)⟩

/-- C2 (code evaluation at the failing input): when the shutdown
signal has fired while a worker waits for rate-limiter admission (the
done channel is closed at the poll), retryRateLimit returns nil, so
the worker proceeds to send the message as an HTTP request: the
message is not dropped and no wrapped rate-limit error is emitted. -/
theorem C2_shutdown_poll_sends (m : Message) (p : RetryPoll)
    (hdone : p.doneClosed = true) :
    retryStep p = some RetryOutcome.nilReturn ∧
    (∀ ps, retryLoop (p :: ps) = some RetryOutcome.nilReturn) ∧
    workerAfterRetry m RetryOutcome.nilReturn = WorkerAction.sent m ∧
    ∀ m2, workerAfterRetry m RetryOutcome.nilReturn ≠ WorkerAction.droppedWithError m2 := by
  have hs : retryStep p = some RetryOutcome.nilReturn := by
    simp [retryStep, hdone]
  refine ⟨hs, fun ps => by simp [retryLoop, hs], rfl, fun m2 => by simp [workerAfterRetry]⟩

/-- Witness for C2 at a concrete shutdown poll. -/
theorem C2_witness :
    ({ doneClosed := true, timerElapsedNs := 0, addOk := false } : RetryPoll).doneClosed
        = true ∧
    retryStep { doneClosed := true, timerElapsedNs := 0, addOk := false }
        = some RetryOutcome.nilReturn :=
  ⟨rfl, (C2_shutdown_poll_sends "m" _ rfl).1⟩

/-- C3: classifyStatus yields no error for 2xx, a retryable
RequestError for status at least 500, a non-retryable RequestError for
every other status, and any produced error carries the failed
message. -/
theorem C3_classifyStatus (s : Int) (m : Message) :
    (200 ≤ s ∧ s < 300 → classifyStatus s m = none) ∧
    (500 ≤ s → ∃ e, classifyStatus s m = some e ∧
      e.isRetryable = true ∧ e.message = m) ∧
    ((s < 200 ∨ (300 ≤ s ∧ s < 500)) → ∃ e, classifyStatus s m = some e ∧
      e.isRetryable = false ∧ e.message = m) := by
  refine ⟨fun h => ?_, fun h => ?_, fun h => ?_⟩
  · have h2 : is2XX s = true := by simp [is2XX]; omega
    simp [classifyStatus, h2]
  · have h2 : is2XX s = false := by simp [is2XX]; omega
    have h5 : is5XX s = true := by simp [is5XX]; omega
    exact ⟨newRequestError s m true, by simp [classifyStatus, h2, h5], rfl, rfl⟩
  · have h2 : is2XX s = false := by simp [is2XX]; omega
    have h5 : is5XX s = false := by simp [is5XX]; omega
    exact ⟨newRequestError s m false, by simp [classifyStatus, h2, h5], rfl, rfl⟩

/-- Witness for C3 at status 503. -/
theorem C3_witness :
    (500 ≤ (503 : Int)) ∧
    ∃ e, classifyStatus 503 "m" = some e ∧
      e.isRetryable = true ∧ e.message = "m" :=
  ⟨by decide, (C3_classifyStatus 503 "m").2.1 (by decide)⟩

/-- C4: the bounded queue accepts exactly its free space. For a queue
of capacity C holding B with no worker draining it: a Notify call
succeeds iff every message fits; the accepted messages are exactly the
longest enqueued prefix (enqueuing stops at the first rejection); any
returned error is temporary with a 3s retry-after; C successive
single-message calls from empty all succeed and fill the queue, after
which one more single-message call fails. The embedding of the
select/default makes every send non-blocking by construction. -/
theorem C4_notify_bound (C : Nat) (B ms : List Message) (m : Message)
    (hB : B.length ≤ C) :
    ((notify ⟨C, B⟩ ms).2 = none ↔ B.length + ms.length ≤ C) ∧
    (notify ⟨C, B⟩ ms).1.buf = B ++ ms.take (C - B.length) ∧
    (∀ e, (notify ⟨C, B⟩ ms).2 = some e →
      e.isTemporary = true ∧ e.retryAfter = 3 * nsPerSecond) ∧
    (ms.length = C → notifySingles ⟨C, []⟩ ms = (⟨C, ms⟩, none)) ∧
    (B.length = C →
      notify ⟨C, B⟩ [m] = (⟨C, B⟩, some (newEnqueueError m))) := by
  refine ⟨notify_snd_none_iff C B ms hB, ?_, fun e _ => ⟨rfl, rfl⟩, fun hC => ?_, fun hC => ?_⟩
  · have := notify_fst C B ms hB
    rw [this]
  · subst hC
    rw [notifySingles_eq]
    have h1 := notify_fst ms.length [] ms (by simp)
    have h2 := (notify_snd_none_iff ms.length [] ms (by simp)).mpr (by simp)
    have h3 : ms.length - List.length ([] : List Message) = ms.length := by simp
    rw [h3, List.take_length] at h1
    exact Prod.ext_iff.mpr ⟨by rw [h1]; simp, h2⟩
  · have hfull : ¬ B.length < C := by omega
    simp [notify, Queue.trySend, hfull]

/-- Witness for C4 with capacity 1 and two messages. -/
theorem C4_witness :
    List.length ([] : List Message) ≤ 1 ∧
    (notify ⟨1, []⟩ ["a", "b"]).1.buf = [] ++ ["a", "b"].take (1 - List.length ([] : List Message)) :=
  ⟨by decide, (C4_notify_bound 1 [] ["a", "b"] "x" (by decide)).2.1⟩

/-- C5: Stop stops the rate limiter, closes the done channel, waits
for workers bounded by the grace period (so it returns after at most
the grace period of waiting plus constant work), returns the timeout
error exactly when the workers do not all finish within the grace
period, and in either case then closes the error channel and the
message queue, each exactly once. -/
theorem C5_stop (grace : Nat) (wgFinish : Option Nat) :
    (stop grace wgFinish).waitNs ≤ grace ∧
    ((stop grace wgFinish).err = none ↔ ∃ t, wgFinish = some t ∧ t ≤ grace) ∧
    (stop grace wgFinish).actions =
      [StopAction.rlStop, StopAction.closeDone,
       StopAction.closeErrs, StopAction.closeMsgs] ∧
    (stop grace wgFinish).actions.count StopAction.rlStop = 1 ∧
    (stop grace wgFinish).actions.count StopAction.closeDone = 1 ∧
    (stop grace wgFinish).actions.count StopAction.closeErrs = 1 ∧
    (stop grace wgFinish).actions.count StopAction.closeMsgs = 1 := by
  refine ⟨?_, ?_, rfl, rfl, rfl, rfl, rfl⟩
  · cases wgFinish with
    | none => simp [stop, waitWithTimeout]
    | some t =>
      simp only [stop, waitWithTimeout]
      split_ifs with h
      · simpa using h
      · simp
  · cases wgFinish with
    | none => simp [stop, waitWithTimeout]
    | some t =>
      simp only [stop, waitWithTimeout]
      split_ifs with h <;> simp [h]

/-- C6 counterexample: the original claim says a refill tick sets
tokens to min(tokens + refillTokens, max), but tokens and refillTokens
are uint64 and the Go addition wraps: for the constructible limiter
New(100, 2^64 - 1) the first tick sets tokens from 100 to 99, not to
min(100 + (2^64 - 1), 100) = 100. -/
theorem C6_counterexample :
    (RateLimiter.new 100 (2 ^ 64 - 1)).refillTick.tokens ≠
      min ((RateLimiter.new 100 (2 ^ 64 - 1)).tokens +
        (RateLimiter.new 100 (2 ^ 64 - 1)).refillTokens)
        (RateLimiter.new 100 (2 ^ 64 - 1)).max := by
  decide

/-- C6 (amended): in every state reachable from New(rps, refill) by
any interleaving of refill ticks and Add calls, 0 ≤ tokens ≤ max and
max = rps; a refill tick sets tokens to
min((tokens + refillTokens) mod 2^64, max), which is
min(tokens + refillTokens, max) whenever the uint64 addition does not
wrap; Add decrements tokens by exactly one and returns true when
tokens > 0, and leaves tokens unchanged returning false when
tokens = 0, never blocking. -/
theorem C6_rateLimiter_invariant (rps refill : Nat) (r : RateLimiter)
    (h : RateLimiter.reachable rps refill r) :
    r.max = rps ∧ r.refillTokens = refill ∧ r.tokens ≤ r.max ∧
    r.refillTick.tokens = min ((r.tokens + refill) % U64) rps ∧
    (0 < r.tokens → r.add = ({ r with tokens := r.tokens - 1 }, true)) ∧
    (r.tokens = 0 → r.add = (r, false)) := by
  obtain ⟨es, rfl⟩ := h
  obtain ⟨h1, h2, h3⟩ :=
    RateLimiter.run_inv (RateLimiter.new rps refill) es (le_refl rps)
  refine ⟨h1, h2, by rw [h1]; exact h3, ?_, fun hpos => ?_, fun hzero => ?_⟩
  · rw [RateLimiter.refillTick_tokens, h1, h2]
    simp [RateLimiter.new]
  · simp [RateLimiter.add, hpos]
  · simp [RateLimiter.add, hzero]

/-- Witness for C6 at the state reached by one Add call on New(1, 1). -/
theorem C6_witness :
    RateLimiter.reachable 1 1 { tokens := 0, max := 1, refillTokens := 1 } ∧
    RateLimiter.add { tokens := 0, max := 1, refillTokens := 1 } =
      ({ tokens := 0, max := 1, refillTokens := 1 }, false) :=
  ⟨⟨[RLEvent.addCall], rfl⟩,
   (C6_rateLimiter_invariant 1 1 _ ⟨[RLEvent.addCall], rfl⟩).2.2.2.2.2 rfl⟩

/-- C7: Append is all-or-nothing. In any reachable buffer state (the
accumulated content never exceeds the configured size) an Append call
whose messages would push the accumulator past the configured size
returns the capacity error and leaves the accumulator untouched;
otherwise it returns nil and appends all messages in order. -/
theorem C7_buffer_append (size : Int) (B M : List Message)
    (hB : (B.length : Int) ≤ size) :
    (size < (B.length : Int) + (M.length : Int) →
      ((Buffer.mk size B).append M).1.buffer = B ∧
      ((Buffer.mk size B).append M).2 = some (AppendError.maxExceeded size)) ∧
    ((B.length : Int) + (M.length : Int) ≤ size →
      ((Buffer.mk size B).append M).1.buffer = B ++ M ∧
      ((Buffer.mk size B).append M).2 = none) := by
  by_cases hM : M.length = 0
  · have hMnil : M = [] := List.length_eq_zero.mp hM
    subst hMnil
    refine ⟨fun h => ?_, fun h => ?_⟩
    · exfalso
      simp at h
      omega
    · simp [Buffer.append]
  · refine ⟨fun h => ?_, fun h => ?_⟩
    · have hgt : (B.length : Int) + (M.length : Int) > size := by omega
      simp [Buffer.append, hM, hgt]
    · have hgt : ¬ ((B.length : Int) + (M.length : Int) > size) := by omega
      simp [Buffer.append, hM, hgt]

/-- Witness for C7: a full call is rejected, leaving the buffer as it
was. -/
theorem C7_witness :
    ((["a"].length : Int) ≤ 2) ∧ ((2 : Int) < (["a"].length : Int) + ((["b", "c"].length : Int))) ∧
    ((Buffer.mk 2 ["a"]).append ["b", "c"]).1.buffer = ["a"] ∧
    ((Buffer.mk 2 ["a"]).append ["b", "c"]).2 = some (AppendError.maxExceeded 2) :=
  ⟨by decide, by decide,
   (C7_buffer_append 2 ["a"] ["b", "c"] (by decide)).1 (by decide)⟩

/-- C8: batch integrity. Appending m1..mk one by one (k within the
configured size) accumulates exactly those messages in order; with a
receiver ready on the flush channel the next tick hands off exactly
that batch and resets the accumulator to empty; a tick with an empty
accumulator produces no flush event. -/
theorem C8_flush_batch (size : Int) (ms : List Message)
    (h : (ms.length : Int) ≤ size) :
    Buffer.appendEach ⟨size, []⟩ ms = ⟨size, ms⟩ ∧
    (ms ≠ [] → Buffer.flush ⟨size, ms⟩ true = (⟨size, []⟩, some ms)) ∧
    Buffer.flush ⟨size, []⟩ true = (⟨size, []⟩, none) := by
  refine ⟨?_, fun hne => ?_, rfl⟩
  · have := Buffer.appendEach_spec size ms [] (by simpa using h)
    simpa using this
  · have hlen : ¬ ms.length = 0 := by
      simpa [List.length_eq_zero] using hne
    simp [Buffer.flush, hlen]

/-- Witness for C8 with two messages and size 2. -/
theorem C8_witness :
    ((["a", "b"].length : Int) ≤ 2) ∧
    Buffer.appendEach ⟨2, []⟩ ["a", "b"] = ⟨2, ["a", "b"]⟩ :=
  ⟨by decide, (C8_flush_batch 2 ["a", "b"] (by decide)).1⟩

/-- C9: a failing multi-message Notify call is not atomic: the
rejection happens at the first message that finds the queue full (at
index C - |B|), the previously accepted prefix stays in the queue, and
every accepted message is still in the queue buffer after the error is
returned (no rollback). -/
theorem C9_enqueue_nonatomic (C : Nat) (B ms : List Message)
    (hB : B.length ≤ C) (hover : C < B.length + ms.length) :
    (notify ⟨C, B⟩ ms).2 = some (newEnqueueError (ms.getD (C - B.length) "")) ∧
    (notify ⟨C, B⟩ ms).1.buf = B ++ ms.take (C - B.length) ∧
    ∀ x ∈ ms.take (C - B.length), x ∈ (notify ⟨C, B⟩ ms).1.buf := by
  refine ⟨notify_snd_some C B ms hB hover, ?_, fun x hx => ?_⟩
  · rw [notify_fst C B ms hB]
  · rw [notify_fst C B ms hB]
    exact List.mem_append.mpr (Or.inr hx)

/-- Witness for C9: capacity 1, two messages; the call fails on the
second message while the first stays enqueued. -/
theorem C9_witness :
    (List.length ([] : List Message) ≤ 1) ∧ (1 < List.length ([] : List Message) + ["a", "b"].length) ∧
    (notify ⟨1, []⟩ ["a", "b"]).2 =
      some (newEnqueueError (["a", "b"].getD (1 - List.length ([] : List Message)) "")) :=
  ⟨by decide, by decide,
   (C9_enqueue_nonatomic 1 [] ["a", "b"] (by decide) (by decide)).1⟩

/-- C10: the error channel is unbuffered (capacity zero), so a
non-blocking sendError delivers an error exactly when a consumer is
blocked receiving at that instant, never buffers an error, and the
emitting worker never blocks (the select has a default branch). -/
theorem C10_error_channel (receiverWaiting : Bool) (buffered : Nat) :
    errsCapacity = 0 ∧
    sendError receiverWaiting = receiverWaiting ∧
    chanTrySend errsCapacity buffered receiverWaiting = receiverWaiting := by
  refine ⟨rfl, ?_, ?_⟩
  · simp [sendError, chanTrySend, errsCapacity]
  · simp [chanTrySend, errsCapacity]

end Notifier
